import Mathlib

/-!
Shallow embedding of the memo_ai Obsidian plugin core.

Sources embedded here:
- `ChunkManager` (src/unnamed/part_000): chunk data model, scoring, the
  incremental-merge decision loop of `extractChunksFromActiveNote`,
  `createNewChunk`, `updateChunk`, `deleteChunk`, `computeChunkScore`.
- `LLMService` (src/src/LLMService.ts): `extractChunksIncremental` and
  `generatePushResponse`, with the HTTP call outcome supplied as data.

Modelling conventions: JavaScript numbers are exact rationals; the
real-valued logistic boost of `computeChunkScore` (which uses `Math.exp`)
lives in `Real`. Timestamps are rationals (milliseconds). The JS `Map` of
chunks is an insertion-ordered association list. `SM2Algorithm.ts` is not
part of the sources, so `SM2Algorithm.getImportanceMultiplier` is kept as
an explicit function parameter `im`; `PushManager.deletePushesForChunk`
is modelled from the spec where noted.
-/

namespace MemoAI

open Filter

/-- Importance levels of a chunk, from the union type
`importanceLevel: low | medium | high` in `ChunkManager`. -/
inductive ImportanceLevel
  | low
  | medium
  | high
deriving DecidableEq, Repr

/-- The single supported chunk type tag (`ChunkType = knowledge`). -/
inductive ChunkType
  | knowledge
deriving DecidableEq, Repr

/-- The `Chunk` interface of `ChunkManager` (src/unnamed/part_000 lines 8-23). -/
structure Chunk where
  id : String
  notePath : String
  content : String
  chunkType : ChunkType
  importanceLevel : ImportanceLevel
  needsReview : Bool
  sm2Ef : ℚ
  sm2Repetitions : ℤ
  sm2IntervalDays : ℤ
  familiarScore : ℚ
  dueAt : ℚ
  createdAt : ℚ
  lastReviewedAt : Option ℚ
  chunkScore : Option ℝ

/-- JavaScript `Math.round`: rounds half-up, `Math.round x = ⌊x + 1/2⌋`. -/
def jsRound (q : ℚ) : ℤ := ⌊q + 1 / 2⌋

/-- Whitespace test for the model of the JS string `trim` (the common
whitespace characters; the full JS set also has exotic Unicode spaces that
never matter here). -/
def jsWhitespace (c : Char) : Bool :=
  c == ' ' || c == '\t' || c == '\n' || c == '\r'

/-- Model of the JavaScript `String.prototype.trim`: drop whitespace from
both ends. Defined structurally on the character list so that it evaluates
by kernel reduction. -/
def jsTrim (s : String) : String :=
  ⟨((s.data.dropWhile jsWhitespace).reverse.dropWhile jsWhitespace).reverse⟩

/-- Milliseconds per day, `1000 * 60 * 60 * 24`, as written in
`computeChunkScore` and in the `dueAt` updates. -/
def msPerDay : ℚ := 1000 * 60 * 60 * 24

/-- The importance term of `ChunkManager.computeChunkScore` (lines 368-370):
high maps to 2, medium to 1, low to 0. -/
def importanceWeight : ImportanceLevel → ℚ
  | .high => 2
  | .medium => 1
  | .low => 0

/-- The due boost of `ChunkManager.computeChunkScore` (lines 382-384):
`chunk.dueAt ? 4 / (1 + Math.exp(-(now - chunk.dueAt) / (1000*60*60*24))) : 0`.
The JS truthiness test on the numeric field `dueAt` is the test `dueAt ≠ 0`. -/
noncomputable def dueBoost (dueAt now : ℚ) : ℝ :=
  if dueAt ≠ 0 then
    4 / (1 + Real.exp (-(((now : ℝ) - (dueAt : ℝ)) / (msPerDay : ℝ))))
  else 0

/-- `ChunkManager.computeChunkScore` (lines 367-386): importance weight plus
`1 - familiarScore` plus the due boost. The implementation reads `Date.now()`
itself; here the current time is the explicit parameter `now`. -/
noncomputable def computeChunkScore (chunk : Chunk) (now : ℚ) : ℝ :=
  (importanceWeight chunk.importanceLevel : ℝ) + (1 - (chunk.familiarScore : ℝ))
    + dueBoost chunk.dueAt now

/-- Rational cast to the reals tends to infinity along atTop. -/
theorem tendsto_ratCast_real_atTop :
    Tendsto (fun q : ℚ => (q : ℝ)) atTop atTop :=
  tendsto_ratCast_atTop_iff.mpr tendsto_id

/-- Rational cast to the reals tends to negative infinity along atBot. -/
theorem tendsto_ratCast_real_atBot :
    Tendsto (fun q : ℚ => (q : ℝ)) atBot atBot :=
  tendsto_ratCast_atBot_iff.mpr tendsto_id

/-- The exponent argument of the due boost tends to minus infinity as the
current time tends to plus infinity. -/
theorem dueBoost_exponent_atBot (d : ℚ) :
    Tendsto (fun t : ℚ => -(((t : ℝ) - (d : ℝ)) / (msPerDay : ℝ))) atTop atBot := by
  apply tendsto_neg_atTop_atBot.comp
  apply Tendsto.atTop_div_const (by norm_num [msPerDay])
  simpa [sub_eq_add_neg] using
    tendsto_atTop_add_const_right atTop (-(d : ℝ)) tendsto_ratCast_real_atTop

/-- The exponent argument of the due boost tends to plus infinity as the
current time tends to minus infinity. -/
theorem dueBoost_exponent_atTop (d : ℚ) :
    Tendsto (fun t : ℚ => -(((t : ℝ) - (d : ℝ)) / (msPerDay : ℝ))) atBot atTop := by
  apply tendsto_neg_atBot_atTop.comp
  apply Tendsto.atBot_div_const (by norm_num [msPerDay])
  simpa [sub_eq_add_neg] using
    tendsto_atBot_add_const_right atBot (-(d : ℝ)) tendsto_ratCast_real_atBot

/-- With a nonzero due date, the due boost tends to 4 for chunks overdue
without bound. -/
theorem dueBoost_tendsto_atTop (d : ℚ) (hd : d ≠ 0) :
    Tendsto (fun t : ℚ => dueBoost d t) atTop (nhds 4) := by
  have hexp : Tendsto
      (fun t : ℚ => Real.exp (-(((t : ℝ) - (d : ℝ)) / (msPerDay : ℝ))))
      atTop (nhds 0) :=
    Real.tendsto_exp_atBot.comp (dueBoost_exponent_atBot d)
  have hden : Tendsto
      (fun t : ℚ => 1 + Real.exp (-(((t : ℝ) - (d : ℝ)) / (msPerDay : ℝ))))
      atTop (nhds 1) := by
    simpa using tendsto_const_nhds.add hexp
  have hdiv := ((tendsto_const_nhds : Tendsto (fun _ : ℚ => (4 : ℝ)) atTop (nhds 4))).div hden one_ne_zero
  simp only [dueBoost, if_pos hd]
  simpa using hdiv

/-- With a nonzero due date, the due boost tends to 0 for chunks whose due
date recedes without bound into the future. -/
theorem dueBoost_tendsto_atBot (d : ℚ) (hd : d ≠ 0) :
    Tendsto (fun t : ℚ => dueBoost d t) atBot (nhds 0) := by
  have hexp : Tendsto
      (fun t : ℚ => Real.exp (-(((t : ℝ) - (d : ℝ)) / (msPerDay : ℝ))))
      atBot atTop :=
    Real.tendsto_exp_atTop.comp (dueBoost_exponent_atTop d)
  have hden : Tendsto
      (fun t : ℚ => 1 + Real.exp (-(((t : ℝ) - (d : ℝ)) / (msPerDay : ℝ))))
      atBot atTop := tendsto_atTop_add_const_left atBot 1 hexp
  have hdiv := Tendsto.div_atTop ((tendsto_const_nhds : Tendsto (fun _ : ℚ => (4 : ℝ)) atBot (nhds 4))) hden
  simp only [dueBoost, if_pos hd]
  exact hdiv

/-- Statement of claim C1 at a given chunk and time: the score decomposes as
importance weight plus familiarity complement plus due boost; the weights are
2, 1, 0; the boost is 0 for an absent (zero) due date, exactly 2 at the due
instant, tends to 4 as the overdue amount grows and to 0 for a due date far
in the future. -/
def ChunkScoreClaim (chunk : Chunk) (now : ℚ) : Prop :=
  computeChunkScore chunk now
      = (importanceWeight chunk.importanceLevel : ℝ) + (1 - (chunk.familiarScore : ℝ))
        + dueBoost chunk.dueAt now
    ∧ importanceWeight .high = 2
    ∧ importanceWeight .medium = 1
    ∧ importanceWeight .low = 0
    ∧ (chunk.dueAt = 0 → dueBoost chunk.dueAt now = 0)
    ∧ (chunk.dueAt ≠ 0 → dueBoost chunk.dueAt chunk.dueAt = 2)
    ∧ (chunk.dueAt ≠ 0 →
        Tendsto (fun t : ℚ => dueBoost chunk.dueAt t) atTop (nhds 4))
    ∧ (chunk.dueAt ≠ 0 →
        Tendsto (fun t : ℚ => dueBoost chunk.dueAt t) atBot (nhds 0))

/-- Claim C1: for every chunk and every time, `computeChunkScore` equals the
importance weight (high 2, medium 1, low 0) plus `1 - familiarScore` plus the
due boost, where the boost is 0 when the due date is absent, equals 2 when
`now = dueAt` (exactly, hence within any epsilon), tends to 4 as
`now - dueAt` tends to plus infinity and to 0 as it tends to minus
infinity. -/
theorem computeChunkScore_spec (chunk : Chunk) (now : ℚ) :
    ChunkScoreClaim chunk now := by
  refine ⟨rfl, rfl, rfl, rfl, ?_, ?_, ?_, ?_⟩
  · intro h
    simp [dueBoost, h]
  · intro h
    have : dueBoost chunk.dueAt chunk.dueAt
        = 4 / (1 + Real.exp (-(((chunk.dueAt : ℝ) - (chunk.dueAt : ℝ)) / (msPerDay : ℝ)))) := by
      simp [dueBoost, h]
    rw [this]
    norm_num
  · exact dueBoost_tendsto_atTop chunk.dueAt
  · exact dueBoost_tendsto_atBot chunk.dueAt

/-- A concrete chunk used to instantiate hypotheses of the claim theorems. -/
def baseChunk : Chunk :=
  { id := "a"
    notePath := "note.md"
    content := "knowledge"
    chunkType := .knowledge
    importanceLevel := .medium
    needsReview := true
    sm2Ef := 5 / 2
    sm2Repetitions := 3
    sm2IntervalDays := 6
    familiarScore := 4 / 5
    dueAt := 100
    createdAt := 1
    lastReviewedAt := none
    chunkScore := none }

/-- Witness for C1: the due-time part of the claim evaluated at a chunk whose
due date is the concrete nonzero timestamp 100. -/
theorem computeChunkScore_spec_witness :
    dueBoost baseChunk.dueAt baseChunk.dueAt = 2 :=
  (computeChunkScore_spec baseChunk 0).2.2.2.2.2.1 (by norm_num [baseChunk])

/-! The in-memory chunk store. `ChunkManager` keeps a JS
`Map<string, Chunk>`: insertion-ordered, unique keys, `set` updates in
place, `delete` removes the entry. It is modelled as an association
list. -/

/-- Association-list model of the `Map<string, Chunk>` of `ChunkManager`. -/
abbrev ChunkMap := List (String × Chunk)

/-- Lookup, as `Map.get`. -/
def mapGet (m : ChunkMap) (k : String) : Option Chunk :=
  (m.find? (fun e => e.1 == k)).map (fun e => e.2)

/-- Insertion, as `Map.set`: updates an existing key in place, otherwise
appends at the end (JS maps preserve insertion order). -/
def mapSet (m : ChunkMap) (k : String) (v : Chunk) : ChunkMap :=
  if m.any (fun e => e.1 == k) then
    m.map (fun e => if e.1 == k then (k, v) else e)
  else m ++ [(k, v)]

/-- Removal, as `Map.delete`. -/
def mapDelete (m : ChunkMap) (k : String) : ChunkMap :=
  m.filter (fun e => e.1 != k)

/-- In-place mutation of the chunk object stored under a key, as the JS code
does by assigning to the fields of a chunk reference obtained from the map.
When the key is absent the store is unchanged (the dead object is mutated
but no longer reachable from the map). -/
def mapModify (m : ChunkMap) (k : String) (f : Chunk → Chunk) : ChunkMap :=
  m.map (fun e => if e.1 == k then (e.1, f e.2) else e)

/-- `ChunkManager.getAllChunks`: the values of the map in order. -/
def getAllChunks (m : ChunkMap) : List Chunk :=
  m.map (fun e => e.2)

/-- `ChunkManager.getChunksByNotePath` (lines 302-304). -/
def getChunksByNotePath (m : ChunkMap) (notePath : String) : List Chunk :=
  (getAllChunks m).filter (fun c => c.notePath == notePath)

theorem mapGet_mapSet_self (m : ChunkMap) (k : String) (v : Chunk) :
    mapGet (mapSet m k v) k = some v := by
  unfold mapSet
  by_cases h : m.any (fun e => e.1 == k)
  · rw [if_pos h]
    induction m with
    | nil => simp at h
    | cons e t ih =>
      by_cases he : e.1 == k
      · simp [mapGet, List.find?, he]
      · have ht : t.any (fun e => e.1 == k) := by
          simpa [List.any_cons, he] using h
        simpa [mapGet, List.find?, he] using ih ht
  · rw [if_neg h]
    induction m with
    | nil => simp [mapGet, List.find?]
    | cons e t ih =>
      have he : (e.1 == k) = false := by
        by_contra hc
        rw [Bool.not_eq_false] at hc
        exact h (by simp [List.any_cons, hc])
      have ht : ¬ t.any (fun e => e.1 == k) := by
        intro hc
        exact h (by simp [List.any_cons, hc])
      simpa [mapGet, List.find?, he] using ih ht

theorem mapGet_mapModify_self (m : ChunkMap) (k : String) (f : Chunk → Chunk)
    (c : Chunk) (h : mapGet m k = some c) :
    mapGet (mapModify m k f) k = some (f c) := by
  induction m with
  | nil => simp [mapGet, List.find?] at h
  | cons e t ih =>
    by_cases he : e.1 == k
    · have hc : e.2 = c := by
        simpa [mapGet, List.find?, he] using h
      simp [mapGet, mapModify, List.find?, he, hc]
    · have ht : mapGet t k = some c := by
        simpa [mapGet, List.find?, he] using h
      simpa [mapGet, mapModify, List.find?, he] using ih ht

theorem mapGet_none_mapDelete (m : ChunkMap) (k : String)
    (h : mapGet m k = none) : mapDelete m k = m := by
  induction m with
  | nil => rfl
  | cons e t ih =>
    by_cases he : e.1 == k
    · simp [mapGet, List.find?, he] at h
    · have ht : mapGet t k = none := by
        simpa [mapGet, List.find?, he] using h
      simp [mapDelete, List.filter, bne, he] at ih ⊢
      exact ih ht

theorem mapGet_mapDelete_self (m : ChunkMap) (k : String) :
    mapGet (mapDelete m k) k = none := by
  induction m with
  | nil => rfl
  | cons e t ih =>
    by_cases he : e.1 == k
    · simp only [mapDelete, List.filter, bne, he, Bool.not_true] at ih ⊢
      exact ih
    · simp [mapGet, mapDelete, List.filter_cons, List.find?, bne, he, ih]

/-! Incremental extraction data (LLMService.ts lines 11-36) and the merge
decision loop of `ChunkManager.extractChunksFromActiveNote`
(src/unnamed/part_000 lines 91-242). -/

/-- Content-change levels for a modify decision (`update_level`). -/
inductive UpdateLevel
  | minor
  | moderate
  | major
deriving DecidableEq, BEq, Repr

/-- The action of an incremental decision (`keep | modify | delete`). -/
inductive MergeAction
  | keep
  | modify
  | delete
deriving DecidableEq, BEq, Repr

/-- The `LLMChunk` interface: one extracted content string. -/
structure LLMChunk where
  content : String
deriving DecidableEq, Repr

/-- The `IncrementalChunkDecision` interface; `modified_content` and
`update_level` are optional fields. -/
structure IncrementalChunkDecision where
  id : String
  action : MergeAction
  modified_content : Option String
  update_level : Option UpdateLevel
deriving DecidableEq, Repr

/-- The `IncrementalLLMResponse` interface as returned (after validation) by
`LLMService.extractChunksIncremental`. -/
structure IncrementalLLMResponse where
  existing_chunks : List IncrementalChunkDecision
  new_chunks : List LLMChunk
deriving DecidableEq, Repr

/-- The mutation a modify decision applies to an existing chunk
(src/unnamed/part_000 lines 171-216): replace the content with the trimmed
`modified_content`, decay `familiarScore` by the retention of the update
level (0.9 minor, 0.7 moderate, 0.4 major, floored at 0), lower the ease
factor (minus 0.1 minor, minus 0.3 moderate and one repetition removed,
times 0.7 major and repetitions reset, all floored at 1.3), recompute the
interval (fresh importance-scaled 1-day interval when repetitions reached
0, otherwise half the previous interval, floored at 1 day), set
`dueAt = now + interval` in days and recompute `chunkScore`. The
`importanceMultiplier` of the missing `SM2Algorithm.ts` is the parameter
`im`. An absent `update_level` defaults to moderate. -/
noncomputable def applyModify (im : ImportanceLevel → ℚ) (now : ℚ)
    (modifiedContent : String) (updateLevelOpt : Option UpdateLevel)
    (c : Chunk) : Chunk :=
  let updateLevel := updateLevelOpt.getD .moderate
  let familiarityRetention : ℚ :=
    match updateLevel with
    | .minor => 9 / 10
    | .moderate => 7 / 10
    | .major => 4 / 10
  let familiarScore := max 0 (c.familiarScore * familiarityRetention)
  let sm2Ef : ℚ :=
    match updateLevel with
    | .minor => max (13 / 10) (c.sm2Ef - 1 / 10)
    | .moderate => max (13 / 10) (c.sm2Ef - 3 / 10)
    | .major => max (13 / 10) (c.sm2Ef * (7 / 10))
  let sm2Repetitions : ℤ :=
    match updateLevel with
    | .minor => c.sm2Repetitions
    | .moderate => max 0 (c.sm2Repetitions - 1)
    | .major => 0
  let sm2IntervalDays : ℤ :=
    if sm2Repetitions = 0 then max 1 (jsRound (1 * im c.importanceLevel))
    else max 1 (jsRound ((c.sm2IntervalDays : ℚ) * (1 / 2)))
  let dueAt := now + (sm2IntervalDays : ℚ) * msPerDay
  let c1 : Chunk :=
    { c with
      content := jsTrim modifiedContent
      familiarScore := familiarScore
      sm2Ef := sm2Ef
      sm2Repetitions := sm2Repetitions
      sm2IntervalDays := sm2IntervalDays
      dueAt := dueAt }
  { c1 with chunkScore := some (computeChunkScore c1 now) }

/-- One iteration of the decision loop (lines 164-219). A decision acts only
when its id occurs in the snapshot of chunks of the note taken before the
external call (`existingChunks.find` on line 165); delete removes the map
entry; modify requires a truthy (nonempty) `modified_content` and mutates
the chunk object in place; keep does nothing. -/
noncomputable def applyDecision (im : ImportanceLevel → ℚ) (now : ℚ)
    (snapshotIds : List String) (store : ChunkMap)
    (d : IncrementalChunkDecision) : ChunkMap :=
  if d.id ∈ snapshotIds then
    match d.action, d.modified_content with
    | .delete, _ => mapDelete store d.id
    | .modify, some mc =>
        if mc = "" then store
        else mapModify store d.id (applyModify im now mc d.update_level)
    | .modify, none => store
    | .keep, _ => store
  else store

/-- `ChunkManager.createNewChunk` (lines 244-280): a fresh medium-importance
chunk with trimmed content, familiarity 0, ease factor 2.5, zero
repetitions, the initial importance-scaled 1-day interval floored at 1 day,
`dueAt` one interval from now, and an initial `chunkScore`. The random id
generated by the code is the explicit parameter `id`. -/
noncomputable def createNewChunk (im : ImportanceLevel → ℚ) (now : ℚ)
    (id : String) (content : String) (notePath : String) : Chunk :=
  let importanceLevel : ImportanceLevel := .medium
  let adjustedIntervalDays : ℤ := max 1 (jsRound (1 * im importanceLevel))
  let dueAt : ℚ := now + (adjustedIntervalDays : ℚ) * msPerDay
  let chunk : Chunk :=
    { id := id
      notePath := notePath
      content := jsTrim content
      chunkType := .knowledge
      importanceLevel := importanceLevel
      needsReview := true
      sm2Ef := 5 / 2
      sm2Repetitions := 0
      sm2IntervalDays := adjustedIntervalDays
      familiarScore := 0
      dueAt := dueAt
      createdAt := now
      lastReviewedAt := none
      chunkScore := none }
  { chunk with chunkScore := some (computeChunkScore chunk now) }

/-- The new-chunk loops of `extractChunksFromActiveNote` (lines 131-142 and
221-232): contents that are empty or whitespace-only are skipped, the rest
are created and added; the second component counts the created chunks. The
fresh random ids are drawn from `genId`, indexed by the number of chunks
created so far. -/
noncomputable def processNewChunks (im : ImportanceLevel → ℚ) (now : ℚ)
    (notePath : String) (genId : ℕ → String) (store : ChunkMap)
    (llmChunks : List LLMChunk) : ChunkMap × ℕ :=
  llmChunks.foldl
    (fun acc lc =>
      if jsTrim lc.content = "" then acc
      else
        let ch := createNewChunk im now (genId acc.2) lc.content notePath
        (mapSet acc.1 ch.id ch, acc.2 + 1))
    (store, 0)

/-- `ChunkManager.extractChunksFromActiveNote` (lines 91-242) as a function
of the chunk store. The active file, the configured API key, and the
outcomes of the two possible external calls are inputs; the result is the
new store together with the list of notices shown to the user, in order.
With no active file or no API key the function returns before any call;
with existing chunks for the note it runs the incremental call and the
decision loop, otherwise the plain extraction call; a failed call is caught
and surfaced as a notice, leaving the store untouched. -/
noncomputable def extractChunksFromActiveNote (im : ImportanceLevel → ℚ)
    (now : ℚ) (activeFile : Option String) (apiKey : String)
    (genId : ℕ → String) (llmExtract : Except String (List LLMChunk))
    (llmIncr : Except String IncrementalLLMResponse)
    (store : ChunkMap) : ChunkMap × List String :=
  match activeFile with
  | none => (store, ["No active note"])
  | some notePath =>
    if apiKey = "" then
      (store, ["LLM API key not configured. Please set it in settings."])
    else
      let existingChunks := getChunksByNotePath store notePath
      if existingChunks.isEmpty then
        match llmExtract with
        | .error e =>
            (store, ["Extracting chunks using LLM...", "LLM extraction failed: " ++ e])
        | .ok llmChunks =>
            let res := processNewChunks im now notePath genId store llmChunks
            let createdN := res.2
            let finalNotice :=
              if 0 < createdN then s!"Extracted {createdN} chunks from {notePath}"
              else ("No chunks extracted. The note may be empty or too short.")
            (res.1, ["Extracting chunks using LLM...", finalNotice])
      else
        match llmIncr with
        | .error e =>
            (store, ["Extracting chunks using LLM...", "LLM extraction failed: " ++ e])
        | .ok result =>
            let snapshotIds := existingChunks.map (fun c => c.id)
            let deletedN := (result.existing_chunks.filter (fun d =>
                snapshotIds.contains d.id && d.action == MergeAction.delete)).length
            let updatedN := (result.existing_chunks.filter (fun d =>
                snapshotIds.contains d.id && d.action == MergeAction.modify
                  && d.modified_content.getD ("") != "")).length
            let store1 := result.existing_chunks.foldl (applyDecision im now snapshotIds) store
            let res := processNewChunks im now notePath genId store1 result.new_chunks
            let createdN := res.2
            (res.1, ["Extracting chunks using LLM...",
              s!"Extracted: {createdN} new, {updatedN} updated, {deletedN} deleted"])

/-- Statement of claim C2: after a modify decision with update level major is
applied, the chunk has zero repetitions, ease factor `max 1.3 (0.7 ef)`,
familiarity `max 0 (0.4 familiarScore)`, the fresh initial
importance-scaled interval `round (1 * im level)` floored at one day, and a
due date one interval (in days) from now. -/
def MergeMajorClaim (im : ImportanceLevel → ℚ) (now : ℚ)
    (snap : List String) (store : ChunkMap) (d : IncrementalChunkDecision)
    (c : Chunk) : Prop :=
  ∃ c2, mapGet (applyDecision im now snap store d) d.id = some c2
    ∧ c2.sm2Repetitions = 0
    ∧ c2.sm2Ef = max (13 / 10) ((7 / 10) * c.sm2Ef)
    ∧ c2.familiarScore = max 0 ((4 / 10) * c.familiarScore)
    ∧ c2.sm2IntervalDays = max 1 (jsRound (1 * im c.importanceLevel))
    ∧ c2.dueAt = now + (c2.sm2IntervalDays : ℚ) * msPerDay

/-- Claim C2: for every stored chunk and every applicable modify decision
with update level major, the updated chunk has repetitions 0, ease factor
`max 1.3 (0.7 ef)`, familiarity `max 0 (0.4 familiarScore)`, the fresh
initial importance-scaled interval floored at one day, and
`dueAt = now + intervalDays` in days. The importance multiplier of the
missing `SM2Algorithm.ts` is abstract here, so this holds for any
multiplier. -/
theorem mergeModifyMajor_spec (im : ImportanceLevel → ℚ) (now : ℚ)
    (snap : List String) (store : ChunkMap) (d : IncrementalChunkDecision)
    (c : Chunk) (mc : String) (hact : d.action = .modify)
    (hmc : d.modified_content = some mc) (hne : mc ≠ "")
    (hlvl : d.update_level = some .major) (hsnap : d.id ∈ snap)
    (hget : mapGet store d.id = some c) :
    MergeMajorClaim im now snap store d c := by
  refine ⟨applyModify im now mc d.update_level c, ?_, ?_, ?_, ?_, ?_, ?_⟩
  · simp only [applyDecision, if_pos hsnap, hact, hmc, if_neg hne]
    exact mapGet_mapModify_self store d.id _ c hget
  · simp [applyModify, hlvl]
  · simp [applyModify, hlvl, mul_comm]
  · simp [applyModify, hlvl, mul_comm]
  · simp [applyModify, hlvl]
  · simp [applyModify, hlvl]

/-- A concrete modify decision with update level major. -/
def majorDecision : IncrementalChunkDecision :=
  { id := "a"
    action := .modify
    modified_content := some ("updated knowledge")
    update_level := some .major }

/-- Witness for C2 at a concrete store, chunk and decision, with the
importance multiplier instantiated to the constant 1. -/
theorem mergeModifyMajor_spec_witness :
    MergeMajorClaim (fun _ => 1) 0 ["a"] [("a", baseChunk)] majorDecision
      baseChunk :=
  mergeModifyMajor_spec (fun _ => 1) 0 ["a"] [("a", baseChunk)] majorDecision
    baseChunk ("updated knowledge") rfl rfl (by decide) rfl (by simp [majorDecision]) rfl

/-- Statement of claim C7: after a modify decision with update level minor is
applied, the ease factor dropped by at most 0.1, is still at least 1.3, and
the repetition count is unchanged. -/
def MergeMinorClaim (im : ImportanceLevel → ℚ) (now : ℚ)
    (snap : List String) (store : ChunkMap) (d : IncrementalChunkDecision)
    (c : Chunk) : Prop :=
  ∃ c2, mapGet (applyDecision im now snap store d) d.id = some c2
    ∧ c.sm2Ef - c2.sm2Ef ≤ 1 / 10
    ∧ (13 / 10 : ℚ) ≤ c2.sm2Ef
    ∧ c2.sm2Repetitions = c.sm2Repetitions

/-- Claim C7: a modify decision with update level minor reduces the ease
factor by at most 0.1, never below 1.3, and leaves the repetition count
unchanged. -/
theorem mergeModifyMinor_spec (im : ImportanceLevel → ℚ) (now : ℚ)
    (snap : List String) (store : ChunkMap) (d : IncrementalChunkDecision)
    (c : Chunk) (mc : String) (hact : d.action = .modify)
    (hmc : d.modified_content = some mc) (hne : mc ≠ "")
    (hlvl : d.update_level = some .minor) (hsnap : d.id ∈ snap)
    (hget : mapGet store d.id = some c) :
    MergeMinorClaim im now snap store d c := by
  refine ⟨applyModify im now mc d.update_level c, ?_, ?_, ?_, ?_⟩
  · simp only [applyDecision, if_pos hsnap, hact, hmc, if_neg hne]
    exact mapGet_mapModify_self store d.id _ c hget
  · have : c.sm2Ef - 1 / 10 ≤ max (13 / 10) (c.sm2Ef - 1 / 10) := le_max_right _ _
    simp only [applyModify, hlvl, Option.getD_some]
    linarith
  · simp only [applyModify, hlvl, Option.getD_some]
    exact le_max_left _ _
  · simp [applyModify, hlvl]

/-- A concrete modify decision with update level minor. -/
def minorDecision : IncrementalChunkDecision :=
  { id := "a"
    action := .modify
    modified_content := some ("updated knowledge")
    update_level := some .minor }

/-- Witness for C7 at a concrete store, chunk and decision. -/
theorem mergeModifyMinor_spec_witness :
    MergeMinorClaim (fun _ => 1) 0 ["a"] [("a", baseChunk)] minorDecision
      baseChunk :=
  mergeModifyMinor_spec (fun _ => 1) 0 ["a"] [("a", baseChunk)] minorDecision
    baseChunk ("updated knowledge") rfl rfl (by decide) rfl (by simp [minorDecision]) rfl

/-- Statement of claim C9: applying a modify decision leaves the id, note
path, creation time, last-review time, importance level, review flag and
chunk type of the chunk unchanged, replaces the content by the trimmed
`modified_content`, and recomputes the cached score. -/
def MergeFrameClaim (im : ImportanceLevel → ℚ) (now : ℚ)
    (snap : List String) (store : ChunkMap) (d : IncrementalChunkDecision)
    (c : Chunk) (mc : String) : Prop :=
  ∃ c2, mapGet (applyDecision im now snap store d) d.id = some c2
    ∧ c2.id = c.id
    ∧ c2.notePath = c.notePath
    ∧ c2.createdAt = c.createdAt
    ∧ c2.lastReviewedAt = c.lastReviewedAt
    ∧ c2.importanceLevel = c.importanceLevel
    ∧ c2.needsReview = c.needsReview
    ∧ c2.chunkType = c.chunkType
    ∧ c2.content = jsTrim mc
    ∧ c2.chunkScore = some (computeChunkScore c2 now)

/-- Claim C9: a modify decision (at any update level, supplied or omitted)
changes only content, familiarity, ease factor, repetitions, interval, due
date and cached score; id, note path, creation time, last-review time,
importance level, review flag and chunk type are untouched — in particular
the last-review time is never set by a content edit. -/
theorem mergeModifyFrame_spec (im : ImportanceLevel → ℚ) (now : ℚ)
    (snap : List String) (store : ChunkMap) (d : IncrementalChunkDecision)
    (c : Chunk) (mc : String) (hact : d.action = .modify)
    (hmc : d.modified_content = some mc) (hne : mc ≠ "")
    (hsnap : d.id ∈ snap) (hget : mapGet store d.id = some c) :
    MergeFrameClaim im now snap store d c mc := by
  refine ⟨applyModify im now mc d.update_level c,
    ?_, rfl, rfl, rfl, rfl, rfl, rfl, rfl, rfl, ?_⟩
  · simp only [applyDecision, if_pos hsnap, hact, hmc, if_neg hne]
    exact mapGet_mapModify_self store d.id _ c hget
  · cases hu : d.update_level.getD .moderate <;>
      simp [applyModify, computeChunkScore, hu]

/-- Witness for C9 at a concrete store, chunk and decision (reusing the
concrete minor-level decision is immaterial: the frame property is proved
for every update level). -/
theorem mergeModifyFrame_spec_witness :
    MergeFrameClaim (fun _ => 1) 0 ["a"] [("a", baseChunk)] majorDecision
      baseChunk ("updated knowledge") :=
  mergeModifyFrame_spec (fun _ => 1) 0 ["a"] [("a", baseChunk)] majorDecision
    baseChunk ("updated knowledge") rfl rfl (by decide) (by simp [majorDecision]) rfl

/-- A modify decision whose `modified_content` is a single space: truthy in
JS (nonempty before trimming) but empty after trimming. -/
def blankDecision : IncrementalChunkDecision :=
  { id := "a"
    action := .modify
    modified_content := some (" ")
    update_level := some .minor }

/-- Counterexample to claim C4 as stated: the modify branch only tests
truthiness of `modified_content` (line 171), not nonemptiness after
trimming, so a whitespace-only `modified_content` replaces the content of a
chunk that satisfied the invariant with the empty string, leaving a stored
chunk whose content is empty after trimming. -/
theorem contentInvariant_counterexample :
    jsTrim (" ") = ""
    ∧ (mapGet (applyDecision (fun _ => 1) 0 ["a"] [("a", baseChunk)]
          blankDecision) "a").map Chunk.content = some ("")
    ∧ jsTrim baseChunk.content = "knowledge" :=
  ⟨rfl, rfl, rfl⟩

/-- Statement of the amended creation half of claim C4: the new-chunk loop
skips an extracted content that is empty or whitespace-only, and otherwise
stores the trimmed (hence nonempty) content. -/
def CreationSkipClaim (im : ImportanceLevel → ℚ) (now : ℚ) (notePath : String)
    (genId : ℕ → String) (store : ChunkMap) (lc : LLMChunk) : Prop :=
  (jsTrim lc.content = "" →
    processNewChunks im now notePath genId store [lc] = (store, 0))
  ∧ (jsTrim lc.content ≠ "" →
      ∃ ch, processNewChunks im now notePath genId store [lc]
          = (mapSet store ch.id ch, 1)
        ∧ ch.content = jsTrim lc.content ∧ ch.content ≠ "")

/-- Statement of the amended merge half of claim C4: a modify decision
replaces the content exactly when `modified_content` is nonempty before
trimming (JS truthiness), storing the trimmed string — which may be empty
when `modified_content` is whitespace-only; with an absent or empty
`modified_content` the store is untouched. -/
def MergeContentClaim (im : ImportanceLevel → ℚ) (now : ℚ)
    (snap : List String) (store : ChunkMap)
    (d : IncrementalChunkDecision) : Prop :=
  (∀ mc c, d.action = .modify → d.modified_content = some mc → mc ≠ "" →
    d.id ∈ snap → mapGet store d.id = some c →
    (mapGet (applyDecision im now snap store d) d.id).map Chunk.content
      = some (jsTrim mc))
  ∧ (d.action = .modify →
      d.modified_content = none ∨ d.modified_content = some ("") →
      applyDecision im now snap store d = store)

/-- Amended claim C4: chunk creation skips empty or whitespace-only
extracted contents and stores trimmed nonempty content; a merge modify
decision replaces the content exactly when `modified_content` is nonempty
before trimming, storing the trimmed string (so a whitespace-only
`modified_content` stores empty content and the non-empty-after-trim
invariant is not preserved by the merge). -/
theorem contentHandling_amended (im : ImportanceLevel → ℚ) (now : ℚ)
    (notePath : String) (genId : ℕ → String) (snap : List String)
    (store : ChunkMap) (lc : LLMChunk) (d : IncrementalChunkDecision) :
    CreationSkipClaim im now notePath genId store lc
      ∧ MergeContentClaim im now snap store d := by
  refine ⟨⟨?_, ?_⟩, ?_, ?_⟩
  · intro h
    simp [processNewChunks, h]
  · intro h
    refine ⟨createNewChunk im now (genId 0) lc.content notePath, ?_, rfl, h⟩
    simp [processNewChunks, h]
  · intro mc c hact hmc hne hsnap hget
    simp only [applyDecision, if_pos hsnap, hact, hmc, if_neg hne]
    rw [mapGet_mapModify_self store d.id _ c hget]
    rfl
  · intro hact hmc
    rcases hmc with hmc | hmc <;> simp [applyDecision, hact, hmc]

/-- Witness for the amended C4: a whitespace-only extracted content is
skipped by the creation loop at a concrete store. -/
theorem contentHandling_amended_witness :
    processNewChunks (fun _ => 1) 0 ("note.md") (fun _ => "fresh")
        [("a", baseChunk)] [{ content := " " }]
      = ([("a", baseChunk)], 0) :=
  (contentHandling_amended (fun _ => 1) 0 ("note.md") (fun _ => "fresh") ["a"]
    [("a", baseChunk)] { content := " " } blankDecision).1.1 rfl

/-! Pushes. `PushManager.ts` and `pushTypes.ts` are not among the sources;
only the fields needed by the cascade contract are modelled, from spec
section 3: a push carries its owning chunk id, and messages are keyed by
their push id. -/

/-- Modelled from the spec: the parts of `StoredPush` (pushTypes.ts is not
under src/) that the deletion cascade touches — the push id and the owning
chunk id (spec section 3). -/
structure StoredPush where
  id : String
  chunkId : String
deriving DecidableEq, Repr

/-- Modelled from the spec: the parts of `StoredPushMessage` that the
deletion cascade touches — the message id and its owning push id (spec
sections 3 and 4.5). -/
structure StoredPushMessage where
  id : String
  pushId : String
deriving DecidableEq, Repr

/-- The joint in-memory state of `ChunkManager` and `PushManager`. -/
structure EngineState where
  chunks : ChunkMap
  pushes : List StoredPush
  messages : List StoredPushMessage

/-- Modelled from the spec: `PushManager.deletePushesForChunk` (PushManager.ts
is not under src/); spec section 4.5 — remove the pushes owned by the chunk
together with their messages. -/
def deletePushesForChunk (pushes : List StoredPush)
    (messages : List StoredPushMessage) (chunkId : String) :
    List StoredPush × List StoredPushMessage :=
  let removed := pushes.filter (fun p => p.chunkId == chunkId)
  (pushes.filter (fun p => p.chunkId != chunkId),
    messages.filter (fun m => ! removed.any (fun p => p.id == m.pushId)))

/-- First step of `ChunkManager.deleteChunk` (lines 357-359): the chunk is
removed from the map and the chunk store is persisted. -/
def deleteChunkRemoveStep (s : EngineState) (chunkId : String) : EngineState :=
  { s with chunks := mapDelete s.chunks chunkId }

/-- Second step of `ChunkManager.deleteChunk` (lines 361-364): the pushes of
the chunk and their messages are deleted. -/
def deleteChunkCascadeStep (s : EngineState) (chunkId : String) : EngineState :=
  let pm := deletePushesForChunk s.pushes s.messages chunkId
  { s with pushes := pm.1, messages := pm.2 }

/-- `ChunkManager.deleteChunk` (lines 357-365): the chunk is removed and
persisted first, the push cascade runs after. -/
def deleteChunk (s : EngineState) (chunkId : String) : EngineState :=
  deleteChunkCascadeStep (deleteChunkRemoveStep s chunkId) chunkId

/-- A concrete engine state with one chunk, one push owned by it and one
message of that push. -/
def cascadeState : EngineState :=
  { chunks := [("a", baseChunk)]
    pushes := [{ id := "p1", chunkId := "a" }]
    messages := [{ id := "m1", pushId := "p1" }] }

/-- Counterexample to claim C5 as stated: `deleteChunk` removes the chunk
(and persists the store) before the push cascade, so at the intermediate
state after its first step the chunk is already gone while a push
referencing it still exists — the cascade does not happen before the chunk
is removed. -/
theorem deleteChunk_order_counterexample :
    mapGet (deleteChunkRemoveStep cascadeState ("a")).chunks ("a") = none
    ∧ ((deleteChunkRemoveStep cascadeState ("a")).pushes.any
        (fun p => p.chunkId == "a")) = true :=
  ⟨rfl, rfl⟩

/-- Amended claim C5: `deleteChunk` removes the chunk first and cascades
after; once it completes, the chunk is gone, every push referencing it and
exactly the messages of those pushes are deleted, and no remaining push
references the deleted chunk. -/
theorem deleteChunk_spec (s : EngineState) (chunkId : String) :
    mapGet (deleteChunk s chunkId).chunks chunkId = none
    ∧ ((deleteChunk s chunkId).pushes.all (fun p => p.chunkId != chunkId)) = true
    ∧ (deleteChunk s chunkId).pushes
        = s.pushes.filter (fun p => p.chunkId != chunkId)
    ∧ (deleteChunk s chunkId).messages
        = s.messages.filter (fun m =>
            ! (s.pushes.filter (fun p => p.chunkId == chunkId)).any
              (fun p => p.id == m.pushId)) := by
  refine ⟨?_, ?_, rfl, rfl⟩
  · exact mapGet_mapDelete_self s.chunks chunkId
  · simp [deleteChunk, deleteChunkCascadeStep, deleteChunkRemoveStep,
      deletePushesForChunk, List.all_eq_true]

/-! Partial updates: `ChunkManager.updateChunk` (lines 336-355) takes a
`Partial<Chunk>`; a field of the update object is either absent or carries
a value. -/

/-- The `Partial<Chunk>` argument of `updateChunk`: every chunk field,
optional. -/
structure ChunkUpdate where
  id : Option String := none
  notePath : Option String := none
  content : Option String := none
  chunkType : Option ChunkType := none
  importanceLevel : Option ImportanceLevel := none
  needsReview : Option Bool := none
  sm2Ef : Option ℚ := none
  sm2Repetitions : Option ℤ := none
  sm2IntervalDays : Option ℤ := none
  familiarScore : Option ℚ := none
  dueAt : Option ℚ := none
  createdAt : Option ℚ := none
  lastReviewedAt : Option (Option ℚ) := none
  chunkScore : Option ℝ := none

/-- `Object.assign(chunk, updates)`: every field present in the update
object overwrites the chunk field, absent fields are kept. -/
def assignUpdates (c : Chunk) (u : ChunkUpdate) : Chunk :=
  { id := u.id.getD c.id
    notePath := u.notePath.getD c.notePath
    content := u.content.getD c.content
    chunkType := u.chunkType.getD c.chunkType
    importanceLevel := u.importanceLevel.getD c.importanceLevel
    needsReview := u.needsReview.getD c.needsReview
    sm2Ef := u.sm2Ef.getD c.sm2Ef
    sm2Repetitions := u.sm2Repetitions.getD c.sm2Repetitions
    sm2IntervalDays := u.sm2IntervalDays.getD c.sm2IntervalDays
    familiarScore := u.familiarScore.getD c.familiarScore
    dueAt := u.dueAt.getD c.dueAt
    createdAt := u.createdAt.getD c.createdAt
    lastReviewedAt := u.lastReviewedAt.getD c.lastReviewedAt
    chunkScore :=
      match u.chunkScore with
      | some v => some v
      | none => c.chunkScore }

/-- The const `importanceChanged` of `updateChunk` (line 341):
`updates.importanceLevel !== undefined && updates.importanceLevel !==
chunk.importanceLevel`. -/
def importanceChanged (u : ChunkUpdate) (c : Chunk) : Bool :=
  match u.importanceLevel with
  | some v => decide (v ≠ c.importanceLevel)
  | none => false

/-- The const `familiarityChanged` of `updateChunk` (line 342). -/
def familiarityChanged (u : ChunkUpdate) (c : Chunk) : Bool :=
  match u.familiarScore with
  | some v => decide (v ≠ c.familiarScore)
  | none => false

/-- The const `dueAtChanged` of `updateChunk` (line 343). -/
def dueAtChanged (u : ChunkUpdate) (c : Chunk) : Bool :=
  match u.dueAt with
  | some v => decide (v ≠ c.dueAt)
  | none => false

/-- `ChunkManager.updateChunk` (lines 336-355): a no-op on an unknown id;
otherwise merge-assign the provided fields and recompute `chunkScore` when
one of importance, familiarity or due date was provided with a changed
value and `chunkScore` itself was not explicitly supplied. -/
noncomputable def updateChunk (now : ℚ) (store : ChunkMap) (chunkId : String)
    (updates : ChunkUpdate) : ChunkMap :=
  match mapGet store chunkId with
  | none => store
  | some chunk =>
    let affectsScore := importanceChanged updates chunk
      || familiarityChanged updates chunk || dueAtChanged updates chunk
    let chunkScoreExplicitlySet := updates.chunkScore.isSome
    let merged := assignUpdates chunk updates
    let final :=
      if affectsScore && ! chunkScoreExplicitlySet then
        { merged with chunkScore := some (computeChunkScore merged now) }
      else merged
    mapSet store chunkId final

/-- Statement of claim C6 for a chunk stored under the given id: the update
applies exactly the provided fields, and the stored score is recomputed on
the merged chunk precisely when one of importance, familiarity or due date
is present with a value different from the current one and `chunkScore` is
not itself supplied; otherwise the score is the supplied one or the
untouched old one (both inside `assignUpdates`). -/
def UpdateChunkClaim (now : ℚ) (store : ChunkMap) (chunkId : String)
    (updates : ChunkUpdate) (c : Chunk) : Prop :=
  mapGet (updateChunk now store chunkId updates) chunkId
    = some
      (if ((updates.importanceLevel ≠ none
              ∧ updates.importanceLevel ≠ some c.importanceLevel)
            ∨ (updates.familiarScore ≠ none
              ∧ updates.familiarScore ≠ some c.familiarScore)
            ∨ (updates.dueAt ≠ none ∧ updates.dueAt ≠ some c.dueAt))
          ∧ updates.chunkScore.isSome = false then
        { assignUpdates c updates with
          chunkScore := some (computeChunkScore (assignUpdates c updates) now) }
      else assignUpdates c updates)

theorem importanceChanged_iff (u : ChunkUpdate) (c : Chunk) :
    importanceChanged u c = true
      ↔ u.importanceLevel ≠ none ∧ u.importanceLevel ≠ some c.importanceLevel := by
  cases h : u.importanceLevel <;> simp [importanceChanged, h]

theorem familiarityChanged_iff (u : ChunkUpdate) (c : Chunk) :
    familiarityChanged u c = true
      ↔ u.familiarScore ≠ none ∧ u.familiarScore ≠ some c.familiarScore := by
  cases h : u.familiarScore <;> simp [familiarityChanged, h]

theorem dueAtChanged_iff (u : ChunkUpdate) (c : Chunk) :
    dueAtChanged u c = true
      ↔ u.dueAt ≠ none ∧ u.dueAt ≠ some c.dueAt := by
  cases h : u.dueAt <;> simp [dueAtChanged, h]

/-- Claim C6: `updateChunk` applies only the provided fields and recomputes
`chunkScore` exactly when at least one of importance level, familiarity or
due date is present with a value different from the current one and the
update does not itself set `chunkScore`; in every other case the score
field is the supplied one or left unchanged. -/
theorem updateChunk_spec (now : ℚ) (store : ChunkMap) (chunkId : String)
    (updates : ChunkUpdate) (c : Chunk)
    (hget : mapGet store chunkId = some c) :
    UpdateChunkClaim now store chunkId updates c := by
  unfold UpdateChunkClaim updateChunk
  rw [hget]
  simp only [mapGet_mapSet_self]
  congr 1
  refine if_congr ?_ rfl rfl
  rw [Bool.and_eq_true, Bool.or_eq_true, Bool.or_eq_true,
    importanceChanged_iff, familiarityChanged_iff, dueAtChanged_iff,
    Bool.not_eq_true']
  rw [or_assoc]

/-- A concrete partial update supplying only a changed familiarity. -/
def familiarityUpdate : ChunkUpdate := { familiarScore := some (1 / 4) }

/-- Witness for C6 at a concrete store, chunk and update. -/
theorem updateChunk_spec_witness :
    UpdateChunkClaim 0 [("a", baseChunk)] "a" familiarityUpdate baseChunk :=
  updateChunk_spec 0 [("a", baseChunk)] "a" familiarityUpdate baseChunk rfl

/-- Statement of claim C8 for an id absent from the store: both mutating
operations are total functions that leave the chunk map unchanged (and the
model has no error channel to raise in). -/
def UnknownIdClaim (now : ℚ) (store : ChunkMap) (s : EngineState)
    (chunkId : String) (updates : ChunkUpdate) : Prop :=
  updateChunk now store chunkId updates = store
  ∧ (deleteChunk s chunkId).chunks = s.chunks

/-- Claim C8: on an unknown id, `updateChunk` returns before touching the
store and `deleteChunk` leaves the set of stored chunks unchanged (the JS
`Map.delete` of an absent key is a no-op); neither raises. -/
theorem unknownId_noop_spec (now : ℚ) (store : ChunkMap) (s : EngineState)
    (chunkId : String) (updates : ChunkUpdate)
    (h1 : mapGet store chunkId = none) (h2 : mapGet s.chunks chunkId = none) :
    UnknownIdClaim now store s chunkId updates := by
  constructor
  · unfold updateChunk
    rw [h1]
  · simp only [deleteChunk, deleteChunkCascadeStep, deleteChunkRemoveStep]
    exact mapGet_none_mapDelete s.chunks chunkId h2

/-- Witness for C8: the unknown id b on a concrete one-chunk store and
state. -/
theorem unknownId_noop_spec_witness :
    UnknownIdClaim 0 [("a", baseChunk)] cascadeState ("b") familiarityUpdate :=
  unknownId_noop_spec 0 [("a", baseChunk)] cascadeState ("b") familiarityUpdate
    rfl rfl

/-! External call model for `LLMService.extractChunksIncremental`
(LLMService.ts lines 177-281). The `requestUrl` call either rejects (a
network, abort or timeout error carrying a name and a message) or resolves
to a response with a status, the error text the error-extraction code
would read from its body, and the optional
`data.choices[0].message.content` string: `none` when the shape check of
lines 233-238 fails, `some none` when the content is missing or empty,
`some (some s)` otherwise. `JSON.parse` plus the field typing is the
`parseJson` parameter. -/

/-- Outcome of the `requestUrl` call seen by `extractChunksIncremental`. -/
inductive LLMCall
  | reject (name : String) (msg : String)
  | response (status : ℤ) (errorMessage : String)
      (choicesContent : Option (Option String))

/-- Result of `JSON.parse` on the reply content, with the two optional list
fields of the incremental payload (either may be absent, defaulted to `[]`
on lines 254-255). -/
structure IncrementalParsed where
  existing_chunks : Option (List IncrementalChunkDecision)
  new_chunks : Option (List LLMChunk)

/-- JavaScript `String.prototype.includes`. -/
def jsIncludes (s pat : String) : Bool :=
  (s.splitOn pat).length != 1

/-- The catch block of `extractChunksIncremental` (lines 266-280): abort and
timeout errors become a timeout message, fetch/connection errors a network
message, and everything else is wrapped with the
`Failed to extract chunks incrementally` prefix. -/
def wrapIncrementalError (apiBase name msg : String) : String :=
  if name == "AbortError" || name == "TimeoutError" then
    "Request timeout. Please check your network connection or try again."
  else if jsIncludes msg ("Failed to fetch") || jsIncludes msg ("ERR_CONNECTION") then
    s!"Network error: Cannot connect to {apiBase}. Please check your network connection and API endpoint."
  else
    "Failed to extract chunks incrementally: " ++ msg

/-- `LLMService.extractChunksIncremental` (lines 177-281) as a function of
the call outcome: a missing API key raises before any call; a rejected
call, a non-2xx status, a malformed response shape, an empty reply content
and an unparseable payload are all caught and rethrown as readable error
messages; on success the two decision lists (defaulted to empty) are
returned. -/
def extractChunksIncremental (apiKey apiBase : String) (call : LLMCall)
    (parseJson : String → Option IncrementalParsed) :
    Except String IncrementalLLMResponse :=
  if apiKey = "" then .error ("LLM API key not configured")
  else
    match call with
    | .reject name msg => .error (wrapIncrementalError apiBase name msg)
    | .response status errorMessage choicesContent =>
      if status < 200 ∨ 300 ≤ status then
        .error (wrapIncrementalError apiBase ("Error") ("LLM API error: " ++ errorMessage))
      else
        match choicesContent with
        | none =>
            .error (wrapIncrementalError apiBase ("Error")
              ("Invalid response format from LLM API"))
        | some none =>
            .error (wrapIncrementalError apiBase ("Error")
              ("Empty response from LLM API"))
        | some (some content) =>
          match parseJson content with
          | none =>
              .error (wrapIncrementalError apiBase ("Error")
                ("Failed to parse LLM response as JSON"))
          | some parsed =>
              .ok { existing_chunks := parsed.existing_chunks.getD []
                    new_chunks := parsed.new_chunks.getD [] }

/-- Statement of the chunk-manager half of claim C3: with a missing API key
the operation aborts before any call, and in either extraction path a
failed external call leaves the store exactly as it was and surfaces the
failure as a readable notice. -/
def ExtractionFailureClaim (im : ImportanceLevel → ℚ) (now : ℚ)
    (notePath apiKey : String) (genId : ℕ → String)
    (llmExtract : Except String (List LLMChunk))
    (llmIncr : Except String IncrementalLLMResponse)
    (store : ChunkMap) : Prop :=
  (apiKey = "" →
    extractChunksFromActiveNote im now (some notePath) apiKey genId
        llmExtract llmIncr store
      = (store, ["LLM API key not configured. Please set it in settings."]))
  ∧ (∀ e, apiKey ≠ "" → (getChunksByNotePath store notePath).isEmpty = true →
      llmExtract = .error e →
      extractChunksFromActiveNote im now (some notePath) apiKey genId
          llmExtract llmIncr store
        = (store, ["Extracting chunks using LLM...", "LLM extraction failed: " ++ e]))
  ∧ (∀ e, apiKey ≠ "" → (getChunksByNotePath store notePath).isEmpty = false →
      llmIncr = .error e →
      extractChunksFromActiveNote im now (some notePath) apiKey genId
          llmExtract llmIncr store
        = (store, ["Extracting chunks using LLM...", "LLM extraction failed: " ++ e]))

/-- Statement of the service half of claim C3: every enumerated failure mode
of `extractChunksIncremental` — missing API key, rejected request, non-2xx
status, malformed response shape, empty reply, unparseable payload — yields
an error rather than a response. -/
def ServiceFailureClaim (apiKey apiBase : String)
    (parseJson : String → Option IncrementalParsed) : Prop :=
  (∀ call, apiKey = "" →
    ∃ msg, extractChunksIncremental apiKey apiBase call parseJson = .error msg)
  ∧ (∀ name m,
      ∃ msg, extractChunksIncremental apiKey apiBase (.reject name m) parseJson
        = .error msg)
  ∧ (∀ status em cc, status < 200 ∨ 300 ≤ status →
      ∃ msg, extractChunksIncremental apiKey apiBase (.response status em cc)
          parseJson = .error msg)
  ∧ (∀ status em,
      ∃ msg, extractChunksIncremental apiKey apiBase (.response status em none)
          parseJson = .error msg)
  ∧ (∀ status em,
      ∃ msg, extractChunksIncremental apiKey apiBase
          (.response status em (some none)) parseJson = .error msg)
  ∧ (∀ status em content, parseJson content = none →
      ∃ msg, extractChunksIncremental apiKey apiBase
          (.response status em (some (some content))) parseJson = .error msg)

/-- Claim C3: a failed LLM extraction call (missing API key, rejected
request, non-2xx response, malformed or unparseable payload) causes zero
mutation — `extractChunksFromActiveNote` returns the chunk store exactly as
it was — and the error is surfaced as a readable notice; and each failure
mode of `extractChunksIncremental` is indeed an error, never a response. -/
theorem extraction_failure_spec (im : ImportanceLevel → ℚ) (now : ℚ)
    (notePath apiKey apiBase : String) (genId : ℕ → String)
    (llmExtract : Except String (List LLMChunk))
    (llmIncr : Except String IncrementalLLMResponse) (store : ChunkMap)
    (parseJson : String → Option IncrementalParsed) :
    ExtractionFailureClaim im now notePath apiKey genId llmExtract llmIncr store
      ∧ ServiceFailureClaim apiKey apiBase parseJson := by
  constructor
  · refine ⟨?_, ?_, ?_⟩
    · intro h
      simp [extractChunksFromActiveNote, h]
    · intro e hk hempty herr
      simp [extractChunksFromActiveNote, hk, hempty, herr]
    · intro e hk hempty herr
      simp [extractChunksFromActiveNote, hk, hempty, herr]
  · refine ⟨?_, ?_, ?_, ?_, ?_, ?_⟩
    · intro call h
      simp only [extractChunksIncremental, if_pos h]
      exact ⟨_, rfl⟩
    · intro name m
      by_cases h : apiKey = ""
      · simp only [extractChunksIncremental, if_pos h]
        exact ⟨_, rfl⟩
      · simp only [extractChunksIncremental, if_neg h]
        exact ⟨_, rfl⟩
    · intro status em cc hstatus
      by_cases h : apiKey = ""
      · simp only [extractChunksIncremental, if_pos h]
        exact ⟨_, rfl⟩
      · simp only [extractChunksIncremental, if_neg h, if_pos hstatus]
        exact ⟨_, rfl⟩
    · intro status em
      by_cases h : apiKey = ""
      · simp only [extractChunksIncremental, if_pos h]
        exact ⟨_, rfl⟩
      · by_cases hs : status < 200 ∨ 300 ≤ status
        · simp only [extractChunksIncremental, if_neg h, if_pos hs]
          exact ⟨_, rfl⟩
        · simp only [extractChunksIncremental, if_neg h, if_neg hs]
          exact ⟨_, rfl⟩
    · intro status em
      by_cases h : apiKey = ""
      · simp only [extractChunksIncremental, if_pos h]
        exact ⟨_, rfl⟩
      · by_cases hs : status < 200 ∨ 300 ≤ status
        · simp only [extractChunksIncremental, if_neg h, if_pos hs]
          exact ⟨_, rfl⟩
        · simp only [extractChunksIncremental, if_neg h, if_neg hs]
          exact ⟨_, rfl⟩
    · intro status em content hparse
      by_cases h : apiKey = ""
      · simp only [extractChunksIncremental, if_pos h]
        exact ⟨_, rfl⟩
      · by_cases hs : status < 200 ∨ 300 ≤ status
        · simp only [extractChunksIncremental, if_neg h, if_pos hs]
          exact ⟨_, rfl⟩
        · simp only [extractChunksIncremental, if_neg h, if_neg hs, hparse]
          exact ⟨_, rfl⟩

/-- Witness for C3: a failing incremental call on a concrete store holding a
chunk of the note leaves the store unchanged and surfaces the message. -/
theorem extraction_failure_spec_witness :
    extractChunksFromActiveNote (fun _ => 1) 0 (some ("note.md")) "key"
        (fun _ => "fresh") (.ok []) (.error ("HTTP 500")) [("a", baseChunk)]
      = ([("a", baseChunk)],
          ["Extracting chunks using LLM...", "LLM extraction failed: HTTP 500"]) :=
  (extraction_failure_spec (fun _ => 1) 0 ("note.md") ("key") ("base")
      (fun _ => "fresh") (.ok []) (.error ("HTTP 500")) [("a", baseChunk)]
      (fun _ => none)).1.2.2 ("HTTP 500") (by decide) rfl rfl

/-! Tutoring replies: `LLMService.generatePushResponse`
(LLMService.ts lines 292-321) parses the JSON object produced by the
tutoring call. The loosely-typed fields of that object are modelled as
they are probed by the code. -/

/-- The `evaluation.grade` field as the grade-parsing code sees it: absent
(undefined or null), present but not coercible to a number (so that
`Number(grade)` is NaN), or a numeric value. -/
inductive JsGradeValue
  | missing
  | nonNumeric
  | num (value : ℚ)
deriving DecidableEq, Repr

/-- The raw `evaluation` object of a tutoring reply. -/
structure RawEvalPayload where
  grade : JsGradeValue
  recommendation : Option String
  confidence : Option ℚ
deriving DecidableEq, Repr

/-- The raw JSON object of a tutoring reply, with the fields
`generatePushResponse` probes: an optional `response` text, the
`should_end` flag (after `Boolean(...)`), and an optional `evaluation`
object. -/
structure RawPushPayload where
  response : Option String
  should_end : Bool
  evaluation : Option RawEvalPayload
deriving DecidableEq, Repr

/-- The `PushEvaluationResult` interface (LLMService.ts lines 61-65). -/
structure PushEvaluationResult where
  grade : ℤ
  recommendation : String
  confidence : Option ℚ
deriving DecidableEq, Repr

/-- The `PushResponseResult` interface (LLMService.ts lines 67-71). -/
structure PushResponseResult where
  response : String
  shouldEnd : Bool
  evaluation : Option PushEvaluationResult
deriving DecidableEq, Repr

/-- `LLMService.generatePushResponse` (lines 292-321) after the JSON reply
has been obtained: a falsy `response` raises; the grade defaults to 3 and,
when the evaluation object carries a numeric grade, becomes
`Math.max(0, Math.min(5, Math.round(grade)))`; the returned evaluation is
present exactly when the raw evaluation object is, with the recommendation
defaulted to the empty string. -/
def generatePushResponse (payload : RawPushPayload) :
    Except String PushResponseResult :=
  match payload.response with
  | none => .error ("LLM response missing answer text")
  | some resp =>
    if resp = "" then .error ("LLM response missing answer text")
    else
      let grade : ℤ :=
        match payload.evaluation with
        | some ev =>
          match ev.grade with
          | .num q => max 0 (min 5 (jsRound q))
          | _ => 3
        | none => 3
      .ok { response := jsTrim resp
            shouldEnd := payload.should_end
            evaluation := payload.evaluation.map (fun ev =>
              { grade := grade
                recommendation := ev.recommendation.getD ("")
                confidence := ev.confidence }) }

/-- Statement of claim C10 for a given raw reply: whenever the call
succeeds and returns an evaluation, its grade is an integer in 0..5; a
numeric raw grade is rounded and clamped into that range, and a missing or
non-numeric raw grade becomes the default 3. -/
def PushGradeClaim (payload : RawPushPayload) : Prop :=
  ∀ res ev, generatePushResponse payload = .ok res →
    res.evaluation = some ev →
    (0 ≤ ev.grade ∧ ev.grade ≤ 5)
    ∧ (∀ rawEv, payload.evaluation = some rawEv →
        (∀ q, rawEv.grade = .num q →
          ev.grade = max 0 (min 5 (jsRound q)))
        ∧ (rawEv.grade = .missing ∨ rawEv.grade = .nonNumeric →
          ev.grade = 3))

/-- Claim C10: every evaluation returned by `generatePushResponse` carries
an integer grade clamped into 0..5 — the rounded and clamped numeric grade
of the service reply, or the default 3 when the reply grade is missing or
not numeric. -/
theorem generatePushResponse_grade_spec (payload : RawPushPayload) :
    PushGradeClaim payload := by
  intro res ev hok hev
  match hresp : payload.response with
  | none => simp [generatePushResponse, hresp] at hok
  | some resp =>
    by_cases hne : resp = ""
    · simp [generatePushResponse, hresp, hne] at hok
    · match hraw : payload.evaluation with
      | none =>
        simp only [generatePushResponse, hresp, if_neg hne, hraw,
          Option.map_none'] at hok
        rw [Except.ok.injEq] at hok
        subst hok
        simp at hev
      | some rawEv =>
        simp only [generatePushResponse, hresp, if_neg hne, hraw,
          Option.map_some'] at hok
        rw [Except.ok.injEq] at hok
        subst hok
        simp only [Option.map_some', Option.some_inj] at hev
        subst hev
        refine ⟨⟨?_, ?_⟩, ?_⟩
        · match hgr : rawEv.grade with
          | .num q =>
            simp only [hgr]
            exact le_max_left _ _
          | .missing => simp [hgr]
          | .nonNumeric => simp [hgr]
        · match hgr : rawEv.grade with
          | .num q =>
            simp only [hgr]
            exact max_le (by norm_num) (min_le_left _ _)
          | .missing => simp [hgr]
          | .nonNumeric => simp [hgr]
        · intro rawEv2 hraw2
          rw [Option.some_inj] at hraw2
          subst hraw2
          constructor
          · intro q hq
            simp [hq]
          · intro hbad
            rcases hbad with hbad | hbad <;> simp [hbad]

/-- A concrete tutoring reply whose evaluation grade is the numeric 3.5
(rounded to 4 and kept inside the range). -/
def numericReply : RawPushPayload :=
  { response := some ("Good recall overall.")
    should_end := true
    evaluation := some
      { grade := .num (7 / 2)
        recommendation := some ("Review the edge cases.")
        confidence := some (9 / 10) } }

/-- The evaluation record `generatePushResponse` returns for the concrete
reply above. -/
def numericReplyEval : PushEvaluationResult :=
  { grade := max 0 (min 5 (jsRound (7 / 2)))
    recommendation := "Review the edge cases."
    confidence := some (9 / 10) }

/-- Witness for C10 at the concrete reply; the hypotheses are discharged by
evaluating `generatePushResponse` on it. -/
theorem generatePushResponse_grade_spec_witness :
    (0 ≤ numericReplyEval.grade ∧ numericReplyEval.grade ≤ 5)
    ∧ (∀ rawEv, numericReply.evaluation = some rawEv →
        (∀ q, rawEv.grade = .num q →
          numericReplyEval.grade = max 0 (min 5 (jsRound q)))
        ∧ (rawEv.grade = .missing ∨ rawEv.grade = .nonNumeric →
          numericReplyEval.grade = 3)) :=
  generatePushResponse_grade_spec numericReply
    { response := jsTrim ("Good recall overall.")
      shouldEnd := true
      evaluation := some numericReplyEval }
    numericReplyEval rfl rfl

end MemoAI
